import Mathlib

/-!
Verification of the gaussian_io parsing core against its specification.

The Python sources (src/gaussian_io/gaussian.py, src/header.py, src/file_io.py)
are shallowly embedded below: each method becomes an executable Lean function,
Python exceptions become an explicit error type, mutable object state becomes an
explicit state record that every method takes and returns (so that partial
mutation before an exception stays observable), and Python floats become exact
values of an explicit float model.  The modules gaussian_io/utils.py
(coordinates_reader, PERIODIC_TABLE) are not present in the source tree; those
two definitions are modelled from the specification and marked as such.
-/

/-- Python exception model: the exception classes the embedded code can raise.
`assertE` carries the assertion message (empty for a bare assert). -/
inductive PyErr where
  | assertE (msg : String)
  | indexE
  | valueE
  | keyE
deriving DecidableEq, Repr

/-- Model of a Python float value: exact rational for finite values, plus the
special values produced by float("inf") / float("-inf") / float("nan"). -/
inductive PyFloat where
  | finite (q : ℚ)
  | pinf
  | ninf
  | nan
deriving DecidableEq, Repr

/-- The whitespace class of Python's str.strip and the regex class \s
(ASCII part, which covers all inputs the parser sees). -/
def isPySpace (c : Char) : Bool :=
  c = ' ' || c = '\t' || c = '\n' || c = '\r' || c = '\x0b' || c = '\x0c'

/-- Python s.startswith(p) (also models re.match with a literal pattern). -/
def hasPre (s p : String) : Bool :=
  p.data.isPrefixOf s.data

/-- Python s.endswith(p). -/
def hasSuf (s p : String) : Bool :=
  p.data.isSuffixOf s.data

/-- Substring search on character lists. -/
def hasSubL : List Char → List Char → Bool
  | [], nd => nd.isEmpty
  | h :: t, nd => nd.isPrefixOf (h :: t) || hasSubL t nd

/-- Python (needle in hay) / re.search with a literal pattern. -/
def containsSub (hay nd : String) : Bool :=
  hasSubL hay.data nd.data

/-- Python s.strip(). -/
def pyStrip (s : String) : String :=
  String.mk (((s.data.dropWhile isPySpace).reverse.dropWhile isPySpace).reverse)

/-- Python s.lower() restricted to ASCII (enough for the re.IGNORECASE uses). -/
def pyLower (s : String) : String :=
  String.mk (s.data.map Char.toLower)

/-- re.search(r"freq", m, re.IGNORECASE): case-insensitive substring search. -/
def searchFreqCI (s : String) : Bool :=
  containsSub (pyLower s) "freq"

/-- Split a character list on a single separator character, Python str.split(c):
adjacent separators produce empty pieces, and the empty input gives [""]. -/
def splitCharL (sep : Char) : List Char → List Char → List String
  | [], acc => [String.mk acc.reverse]
  | c :: t, acc =>
    if c = sep then String.mk acc.reverse :: splitCharL sep t []
    else splitCharL sep t (c :: acc)

/-- Python s.split(c) for a one-character separator. -/
def splitChar (sep : Char) (s : String) : List String :=
  splitCharL sep s.data []

/-- Python s.split(sep) for a multi-character separator: non-overlapping
left-to-right matches, empty pieces between adjacent separators.  The last
argument counts separator characters still to be skipped after a match, which
keeps the recursion structural. -/
def splitStrGo (sep : List Char) : List Char → List Char → Nat → List String
  | [], acc, _ => [String.mk acc.reverse]
  | c :: t, acc, skip =>
    if 0 < skip then splitStrGo sep t acc (skip - 1)
    else if sep.isPrefixOf (c :: t) then
      String.mk acc.reverse :: splitStrGo sep t [] (sep.length - 1)
    else splitStrGo sep t (c :: acc) 0

/-- Python s.split(sep). -/
def pySplitStr (s sep : String) : List String :=
  splitStrGo sep.data s.data [] 0

/-- Splitter for re.split(r",|\s+", s) (useComma = true) and
re.split(r"\s+", s) (useComma = false): each comma is its own separator,
a maximal whitespace run is one separator.  The boolean argument records
that we are inside a whitespace run being skipped. -/
def splitCW (useComma : Bool) : List Char → List Char → Bool → List String
  | [], acc, _ => [String.mk acc.reverse]
  | c :: t, acc, inWs =>
    if inWs && isPySpace c then splitCW useComma t acc true
    else if useComma && c = ',' then
      String.mk acc.reverse :: splitCW useComma t [] false
    else if isPySpace c then
      String.mk acc.reverse :: splitCW useComma t [] true
    else splitCW useComma t (c :: acc) false

/-- re.split(r"\s+", s). -/
def reSplitWs (s : String) : List String :=
  splitCW false s.data [] false

/-- re.split(r",|\s+", s). -/
def reSplitCommaWs (s : String) : List String :=
  splitCW true s.data [] false

/-- re.split(r"#\s?", s): each separator is a hash optionally followed by one
whitespace character. -/
def splitHashL : List Char → List Char → List String
  | [], acc => [String.mk acc.reverse]
  | ['#'], acc => [String.mk acc.reverse, ""]
  | '#' :: c :: t2, acc =>
    if isPySpace c then String.mk acc.reverse :: splitHashL t2 []
    else String.mk acc.reverse :: splitHashL (c :: t2) []
  | c :: t, acc => splitHashL t (c :: acc)

/-- re.split(r"#\s?", s). -/
def splitHash (s : String) : List String :=
  splitHashL s.data []

/-- Scanner for re.findall(r"\d+\.?\d*", s): decimal tokens, at least one
leading digit, at most one dot.  The accumulator holds the reversed current
token; the booleans record being inside a token and having seen the dot. -/
def findAllDecGo : List Char → List Char → Bool → Bool → List String
  | [], acc, inTok, _ => if inTok then [String.mk acc.reverse] else []
  | c :: t, acc, inTok, dotSeen =>
    if inTok then
      if c.isDigit then findAllDecGo t (c :: acc) true dotSeen
      else if c = '.' && !dotSeen then findAllDecGo t (c :: acc) true true
      else String.mk acc.reverse :: findAllDecGo t [] false false
    else
      if c.isDigit then findAllDecGo t [c] true false
      else findAllDecGo t [] false false

/-- re.findall(r"\d+\.?\d*", s). -/
def findAllDec (s : String) : List String :=
  findAllDecGo s.data [] false false

/-- Scanner for re.findall(r"-?\d+", s): integer tokens with optional sign.
A minus sign starts a token only when a digit follows it. -/
def findAllSignGo : List Char → List Char → Bool → List String
  | [], acc, inTok => if inTok then [String.mk acc.reverse] else []
  | c :: t, acc, inTok =>
    if inTok then
      if c.isDigit then findAllSignGo t (c :: acc) true
      else
        String.mk acc.reverse ::
          (if c = '-' then
            match t with
            | d :: _ =>
              if d.isDigit then findAllSignGo t ['-'] true
              else findAllSignGo t [] false
            | [] => []
          else findAllSignGo t [] false)
    else
      if c.isDigit then findAllSignGo t [c] true
      else if c = '-' then
        match t with
        | d :: _ =>
          if d.isDigit then findAllSignGo t ['-'] true
          else findAllSignGo t [] false
        | [] => []
      else findAllSignGo t [] false

/-- re.findall(r"-?\d+", s). -/
def findAllSigned (s : String) : List String :=
  findAllSignGo s.data [] false

/-- Numeric value of a digit list (most significant first). -/
def digitsVal (cs : List Char) : Nat :=
  cs.foldl (fun a c => a * 10 + (c.toNat - '0'.toNat)) 0

/-- Value of a token of shape \d+\.?\d* as an exact rational (used for the
timedelta components, which Python stores exactly enough for these inputs). -/
def decToRat (s : String) : ℚ :=
  let intPart := s.data.takeWhile Char.isDigit
  let rest := s.data.dropWhile Char.isDigit
  let fracPart := (rest.drop 1).takeWhile Char.isDigit
  (digitsVal intPart : ℚ) + (digitsVal fracPart : ℚ) / ((10 : ℚ) ^ fracPart.length)

/-- Python int(s) for the tokens this code feeds it: optional sign then
digits; anything else is a ValueError (None here). -/
def pyIntOf (s : String) : Option Int :=
  match s.data with
  | [] => none
  | '-' :: ds => if ds ≠ [] && ds.all Char.isDigit then some (-(digitsVal ds : Int)) else none
  | '+' :: ds => if ds ≠ [] && ds.all Char.isDigit then some ((digitsVal ds : Int)) else none
  | ds => if ds.all Char.isDigit then some ((digitsVal ds : Int)) else none

/-- Mantissa/exponent part of Python float(s): digits [. digits] [(e|E) [sign] digits],
with at least one mantissa digit.  Returns the exact rational value. -/
def pyFloatMant (cs : List Char) : Option ℚ :=
  let intPart := cs.takeWhile Char.isDigit
  let rest1 := cs.dropWhile Char.isDigit
  let hasDot := rest1.head? = some '.'
  let rest2 := if hasDot then rest1.drop 1 else rest1
  let fracPart := rest2.takeWhile Char.isDigit
  let rest3 := rest2.dropWhile Char.isDigit
  if intPart.length + fracPart.length = 0 then none
  else
    let mant : ℚ := (digitsVal intPart : ℚ) + (digitsVal fracPart : ℚ) / ((10 : ℚ) ^ fracPart.length)
    match rest3 with
    | [] => some mant
    | e :: rest4 =>
      if e = 'e' || e = 'E' then
        let (neg, ds) :=
          match rest4 with
          | '-' :: ds => (true, ds)
          | '+' :: ds => (false, ds)
          | ds => (false, ds)
        if ds ≠ [] && ds.all Char.isDigit then
          let ex : ℤ := if neg then -(digitsVal ds : Int) else (digitsVal ds : Int)
          some (mant * (10 : ℚ) ^ ex)
        else none
      else none

/-- Python float(s) on a whitespace-free token: optional sign, then either a
decimal literal or the special words inf/infinity/nan (case-insensitive).
None models a ValueError. -/
def pyFloatOf (s : String) : Option PyFloat :=
  let cs := s.data
  let (neg, rest) :=
    match cs with
    | '-' :: r => (true, r)
    | '+' :: r => (false, r)
    | r => (false, r)
  let low := String.mk (rest.map Char.toLower)
  if low = "inf" || low = "infinity" then some (if neg then .ninf else .pinf)
  else if low = "nan" then some PyFloat.nan
  else
    match pyFloatMant rest with
    | some q => some (.finite (if neg then -q else q))
    | none => none

/-- Python list indexing l[i] with a non-negative index, IndexError as error. -/
def pyGetN (l : List String) (i : Nat) : Except PyErr String :=
  match l.get? i with
  | some s => .ok s
  | none => .error .indexE

/-- Python list indexing l[k] with possibly negative k (wrap from the end).
Out-of-range access returns "" here; every call site below is statically
in range for the states reachable from the constructor (10 or more lines). -/
def pyGetWrap (l : List String) (k : Int) : String :=
  let n : Int := l.length
  let j : Int := if k < 0 then n + k else k
  if 0 ≤ j ∧ j < n then l.getD j.toNat "" else ""

/-- Python slicing l[a:b] with possibly negative bounds and clamping. -/
def pySliceI (l : List String) (a b : Int) : List String :=
  let n : Int := l.length
  let a' : Int := if a < 0 then max 0 (n + a) else min a n
  let b' : Int := if b < 0 then max 0 (n + b) else min b n
  (l.take b'.toNat).drop a'.toNat

/-- Python l[-3:]: the last three elements (fewer when the list is shorter). -/
def pyLast3 (l : List String) : List String :=
  l.drop (l.length - 3)

/-- Indices [lo, hi) in ascending order, Python range(lo, hi). -/
def rangeList (lo hi : Nat) : List Nat :=
  List.range' lo (hi - lo)

/-- Indices [2, n) in descending order, Python range(n - 1, 1, -1). -/
def descIdx (n : Nat) : List Nat :=
  (List.range' 2 (n - 2)).reverse

/-- Ordered-dict insertion: update the value in place when the key exists,
append otherwise (Python dict assignment d[k] = v). -/
def dictInsert {β : Type} : List (String × β) → String → β → List (String × β)
  | [], k, v => [(k, v)]
  | (k0, v0) :: t, k, v =>
    if k0 = k then (k0, v) :: t else (k0, v0) :: dictInsert t k v

/-- Python s[1:-1] on character lists (drop the first and last character). -/
def strSlice1m1 (s : String) : List Char :=
  (s.data.drop 1).dropLast

/-- The Header entity of src/header.py: resource directives, method keyword
list, title line, charge and multiplicity.  The method attribute starts as
the empty string in Python and is only ever iterated or joined, so the empty
list is an observationally equal initial value. -/
structure Header where
  sys : List (String × String)
  method : List String
  comments : String
  charge : Int
  multiplicity : Int
deriving DecidableEq, Repr

/-- Loop body of Header._read_header (src/header.py lines 44-69), iterating
over the line indices.  `sys` and `method` are the accumulators the Python
loop mutates; reaching the blank line triggers the charge/multiplicity parse
and breaks, and falling off the end keeps every default. -/
def read_header_go (all : List String) : List Nat → List (String × String) → String → Except PyErr Header
  | [], sys, _ => .ok ⟨sys, [], "", 0, 1⟩
  | i :: rest, sys, method =>
    let line := all.getD i ""
    if hasPre line "%" then
      match splitCharL '=' (strSlice1m1 line) [] with
      | [k, v] => read_header_go all rest (dictInsert sys k v) method
      | _ => .error .valueE
    else if hasPre line "#" then
      read_header_go all rest sys (method ++ pyStrip line)
    else if line = "\n" then
      match all.get? (i + 1) with
      | none => .error .indexE
      | some l1 =>
        match all.get? (i + 3) with
        | none => .error .indexE
        | some l3 =>
          match findAllSigned l3 with
          | [cS, mS] =>
            match pyIntOf cS, pyIntOf mS with
            | some c, some m => .ok ⟨sys, (splitHash method).drop 1, pyStrip l1, c, m⟩
            | _, _ => .error .valueE
          | _ => .error .valueE
    else read_header_go all rest sys method

/-- Header construction from input lines: Header(header_lines) of src/header.py.
An exception inside _read_header aborts the constructor, so the result is an
Except value. -/
def headerOfLines (ls : List String) : Except PyErr Header :=
  read_header_go ls (List.range ls.length) [] ""

/-- Header.get_header (src/header.py lines 71-90): regenerate the input-file
lines from a Header. -/
def get_header (h : Header) : List String :=
  (h.sys.map fun kv => "%" ++ kv.1 ++ "=" ++ kv.2 ++ "\n")
    ++ (h.method.map fun m => "# " ++ m ++ "\n")
    ++ ["\n", h.comments ++ "\n", "\n",
        toString h.charge ++ " " ++ toString h.multiplicity ++ "\n"]

/-- The synthetic header of the round-trip property. -/
def c4Header : Header :=
  ⟨[("mem", "8GB"), ("nprocshared", "2")], ["PM7", "opt"], "test job", 0, 1⟩

/-- Index of the first position where the needle occurs, if any. -/
def findSubIdx : List Char → List Char → Option Nat
  | [], nd => if nd.isEmpty then some 0 else none
  | h :: t, nd =>
    if nd.isPrefixOf (h :: t) then some 0
    else (findSubIdx t nd).map (· + 1)

/-- Index of the last position where the needle occurs, if any. -/
def lastSubIdx (cs nd : List Char) : Option Nat :=
  (List.range (cs.length + 1)).foldl
    (fun acc i => if nd.isPrefixOf (cs.drop i) then some i else acc) none

/-- re.findall(r"g16/(.*)\.exe", line)[0]: the first position of "g16/" such
that ".exe" occurs later on the same line; the greedy group runs to the last
".exe" before the line's newline.  None models an empty findall (IndexError
at [0]). -/
def findG16 (s : String) : Option String :=
  match findSubIdx s.data ("g16/".data) with
  | none => none
  | some i =>
    let seg := (s.data.drop (i + 4)).takeWhile (· ≠ '\n')
    match lastSubIdx seg (".exe".data) with
    | some j => some (String.mk (seg.take j))
    | none => none

/-- Last '.' before the first newline of the segment, for the greedy group of
re.findall(r"at (.*)\.", line). -/
def lastDotIdx (cs : List Char) : Option Nat :=
  let seg := cs.takeWhile (· ≠ '\n')
  (List.range seg.length).foldl
    (fun acc i => if seg.getD i ' ' = '.' then some i else acc) none

/-- re.findall(r"at (.*)\.", line)[0]: group of the first "at " occurrence
that has a '.' later on the same line. -/
def findAtGroup : List Char → Option (List Char)
  | [] => none
  | c :: t =>
    if ("at ".data).isPrefixOf (c :: t) then
      let rest := (c :: t).drop 3
      match lastDotIdx rest with
      | some j => some (rest.take j)
      | none => findAtGroup t
    else findAtGroup t

/-- re.sub(r"\s+", "-", s): collapse every whitespace run into one dash.
The boolean records being inside a run already replaced. -/
def subWsDashGo : List Char → Bool → List Char
  | [], _ => []
  | c :: t, inWs =>
    if isPySpace c then
      if inWs then subWsDashGo t true else '-' :: subWsDashGo t true
    else c :: subWsDashGo t false

/-- All-digit check plus numeric value bounds for strptime fields. -/
def digitField (s : String) (lo hi : Nat) (maxLen : Nat) : Bool :=
  s.data ≠ [] && s.data.all Char.isDigit && s.length ≤ maxLen
    && lo ≤ digitsVal s.data && digitsVal s.data ≤ hi

/-- datetime.strptime(s, "%a-%b-%d-%H:%M:%S-%Y") success check: weekday and
month abbreviations, day, colon-separated time, year.  (The value itself is
never consumed downstream, only parse success matters.) -/
def strpOk (s : String) : Bool :=
  match splitChar '-' s with
  | [a, b, d, t, y] =>
    (a ∈ ["Mon", "Tue", "Wed", "Thu", "Fri", "Sat", "Sun"])
      && (b ∈ ["Jan", "Feb", "Mar", "Apr", "May", "Jun",
               "Jul", "Aug", "Sep", "Oct", "Nov", "Dec"])
      && digitField d 1 31 2
      && (match splitChar ':' t with
          | [hh, mm, ss] =>
            digitField hh 0 23 2 && digitField mm 0 59 2 && digitField ss 0 61 2
          | _ => false)
      && digitField y 1 9999 4
  | _ => false

/-- Terminal-line check re.match(r" File| Normal", line). -/
def matchTerminal (s : String) : Bool :=
  hasPre s " File" || hasPre s " Normal"

/-- Date-line check re.match(r" Error| Normal", line). -/
def matchErrNorm (s : String) : Bool :=
  hasPre s " Error" || hasPre s " Normal"

/-- Separator check re.match(r" -+\n", line): a space, one or more hyphens,
then the newline, at the start of the line. -/
def matchSepSp (s : String) : Bool :=
  match s.data with
  | ' ' :: rest =>
    let hy := rest.takeWhile (· = '-')
    hy ≠ [] && (rest.drop hy.length).head? = some '\n'
  | _ => false

/-- Separator check re.match(r"\s-+\n", line): one whitespace character, one
or more hyphens, then the newline. -/
def matchSepWs (s : String) : Bool :=
  match s.data with
  | c :: rest =>
    isPySpace c &&
      (let hy := rest.takeWhile (· = '-')
       hy ≠ [] && (rest.drop hy.length).head? = some '\n')
  | _ => false

/-- Directive check re.match(r"\s%", line). -/
def matchWsPercent (s : String) : Bool :=
  match s.data with
  | c :: d :: _ => isPySpace c && d = '%'
  | _ => false

/-- The last line of the document, Python lines[-1] (callers guarantee the
list is non-empty). -/
def lastLineOf (lines : List String) : String :=
  (lines.getLast?).getD ""

/-- GaussianOut._time_compiler (src/gaussian_io/gaussian.py lines 199-204):
extract the decimal tokens of the line and build
timedelta(days, hours, minutes, seconds), here as exact rational seconds.
Fewer than 4 tokens is the IndexError of time[3]. -/
def time_compiler (line : String) : Except PyErr ℚ :=
  let t := (findAllDec line).map decToRat
  match t with
  | d :: h :: m :: s :: _ => .ok (d * 86400 + h * 3600 + m * 60 + s)
  | _ => .error .indexE

/-- Parse of the completion date inside _parser: findall(r"at (.*)\.") on the
last line (IndexError when empty), whitespace collapsed to dashes, then
strptime (ValueError on mismatch).  Returns the normalized date string. -/
def dateOf (lines : List String) : Except PyErr String :=
  match findAtGroup (lastLineOf lines).data with
  | none => .error .indexE
  | some g =>
    let ds := String.mk (subWsDashGo g false)
    if strpOk ds then .ok ds else .error .valueE

/-- Python truthiness of the error_type slot: False (none here) and the empty
string are falsy, any other string truthy. -/
def pyTruthy : Option String → Bool
  | none => false
  | some s => s ≠ ""

/-- Modelled from the spec: PERIODIC_TABLE of the missing module
gaussian_io/utils.py — the small closed atomic-number-to-symbol mapping
covering the domain's common elements (spec section 4.7; the sibling
src/utils.py carries the same table). -/
def periodicTable : List (Nat × String) :=
  [(1, "H"), (3, "Li"), (6, "C"), (7, "N"), (8, "O"), (9, "F"),
   (11, "Na"), (15, "P"), (16, "S"), (17, "Cl"), (35, "Br"), (53, "I")]

/-- One decoded atom record: element symbol and coordinate values. -/
structure Atom where
  sym : String
  pos : List PyFloat
deriving DecidableEq, Repr

/-- Parse a list of strings as floats, first failure wins (Python map(float, ...)). -/
def mapPyFloat : List String → Except PyErr (List PyFloat)
  | [] => .ok []
  | s :: t =>
    match pyFloatOf s with
    | none => .error .valueE
    | some v =>
      match mapPyFloat t with
      | .ok vs => .ok (v :: vs)
      | .error e => .error e

/-- Modelled from the spec: coordinates_reader of the missing module
gaussian_io/utils.py (spec section 4.7).  Dialect "out" (the table dialect):
fields split on commas/whitespace, atomic number in the 2nd field looked up
in the periodic table (UnknownElementError as keyE), coordinates from the
last 3 fields.  Dialect "xyz" (the plain dialect): element symbol literally
in the 1st field, coordinates from the last 3 fields.  Newline-only entries
are skipped as in the in-repo _force_parser. -/
def coordReader (ftype : String) : List String → Except PyErr (List Atom)
  | [] => .ok []
  | item :: rest =>
    if item = "\n" then coordReader ftype rest
    else
      let seg := reSplitCommaWs (pyStrip item)
      if ftype = "out" then
        match seg.get? 1 with
        | none => .error .indexE
        | some t1 =>
          match pyIntOf t1 with
          | none => .error .valueE
          | some z =>
            match periodicTable.lookup z.toNat with
            | none => .error .keyE
            | some sym =>
              match mapPyFloat (pyLast3 seg) with
              | .error e => .error e
              | .ok ps =>
                match coordReader ftype rest with
                | .ok as2 => .ok (⟨sym, ps⟩ :: as2)
                | .error e => .error e
      else
        match seg.get? 0 with
        | none => .error .indexE
        | some sym =>
          match mapPyFloat (pyLast3 seg) with
          | .error e => .error e
          | .ok ps =>
            match coordReader ftype rest with
            | .ok as2 => .ok (⟨sym, ps⟩ :: as2)
            | .error e => .error e

/-- GaussianOut._force_parser (src/gaussian_io/gaussian.py lines 214-222):
like the table dialect of the coordinate reader — skip newline entries, split
on commas/whitespace, look the 2nd field up in the periodic table, decode the
last 3 fields as floats. -/
def forceParse : List String → Except PyErr (List Atom)
  | [] => .ok []
  | item :: rest =>
    if item = "\n" then forceParse rest
    else
      let seg := reSplitCommaWs (pyStrip item)
      match seg.get? 1 with
      | none => .error .indexE
      | some t1 =>
        match pyIntOf t1 with
        | none => .error .valueE
        | some z =>
          match periodicTable.lookup z.toNat with
          | none => .error .keyE
          | some sym =>
            match mapPyFloat (pyLast3 seg) with
            | .error e => .error e
            | .ok ps =>
              match forceParse rest with
              | .ok as2 => .ok (⟨sym, ps⟩ :: as2)
              | .error e => .error e

/-- GaussianOut._decider_parser (src/gaussian_io/gaussian.py lines 206-212):
each convergence line splits into whitespace tokens; the dict maps
token0_token1 to (float(token2), token4). -/
def deciderParse : List String → List (String × PyFloat × String) → Except PyErr (List (String × PyFloat × String))
  | [], acc => .ok acc
  | line :: rest, acc =>
    let seg := reSplitWs (pyStrip line)
    match seg.get? 2 with
    | none => .error .indexE
    | some t2 =>
      match pyFloatOf t2 with
      | none => .error .valueE
      | some v =>
        match seg.get? 4 with
        | none => .error .indexE
        | some t4 =>
          match seg.get? 1 with
          | none => .error .indexE
          | some t1 =>
            deciderParse rest (dictInsert acc ((seg.getD 0 "") ++ "_" ++ t1) (v, t4))

/-- A value in the summary dict: plain string fields, or the list of
coordinate tokens stored under "coordinates". -/
inductive SumVal where
  | str (v : String)
  | strs (v : List String)
deriving DecidableEq, Repr

/-- One emitted optimization step (the dict appended by parser_optimisation). -/
structure OptStep where
  coord : List Atom
  force : List Atom
  energy : PyFloat
  converge : List (String × PyFloat × String)
deriving DecidableEq, Repr

/-- The _status dict of a GaussianOut object.  error_type is Python False or
a string, modelled as Option String. -/
structure GOStatus where
  finished : Bool
  errorType : Option String
  parserFlag : Bool
  sumReader : Bool
deriving DecidableEq, Repr

/-- The mutable state of a GaussianOut object: every instance attribute the
methods below read or write.  cpu/elapsed times are exact rational seconds
of the accumulated timedelta; the date is the normalized date string. -/
structure GOState where
  lines : List String
  status : GOStatus
  idxHeader : Nat × Nat
  idxSum : Nat × Nat
  header : Option Header
  summary : List (String × SumVal)
  optSteps : List OptStep
  cpuTime : ℚ
  elapsedTime : ℚ
  date : Option String
deriving DecidableEq, Repr

/-- Attribute values set in GaussianOut.__init__ before the status checks. -/
def initGOState (lines : List String) : GOState :=
  { lines := lines
    status := ⟨true, none, false, false⟩
    idxHeader := (0, 0)
    idxSum := (0, 0)
    header := none
    summary := []
    optSteps := []
    cpuTime := 0
    elapsedTime := 0
    date := none }

/-- Header-slice scan of _parser (lines 230-236): the last " Gaussian 16:"
banner index + 3 as start, the first " Charge = " index + 1 as end (break). -/
def hdrGo (lines : List String) : List Nat → Nat → Nat → Nat × Nat
  | [], hs, he => (hs, he)
  | i :: rest, hs, he =>
    let line := lines.getD i ""
    if hasPre line " Gaussian 16:" then hdrGo lines rest (i + 3) he
    else if hasPre line " Charge = " then (hs, i + 1)
    else hdrGo lines rest hs he

/-- The header index range _index["header"] computed by _parser. -/
def headerRangeOf (lines : List String) : Nat × Nat :=
  hdrGo lines (List.range lines.length) 0 0

/-- Loop of _parser_header (lines 273-295): walk the header range counting
separator crossings, collect directive lines, the joined method line, the
title and the charge line into the synthetic header_lines list.  Indices in
the range are below the list length by construction of the range. -/
def phGo (lines : List String) : List Nat → Nat → String → List String → List String
  | [], _, _, acc => acc
  | i :: rest, seg, ml, acc =>
    let line := lines.getD i ""
    if matchSepWs line then phGo lines rest (seg + 1) ml acc
    else if matchWsPercent line then phGo lines rest seg ml (acc ++ [pyStrip line])
    else if seg = 1 then phGo lines rest seg (ml ++ pyStrip line) acc
    else if seg = 3 then phGo lines rest seg ml (acc ++ [ml, "\n", pyStrip line])
    else if hasPre line " Charge" then acc ++ ["\n", pyStrip line]
    else phGo lines rest seg ml acc

/-- GaussianOut._parser_header (lines 273-295): build the synthetic header
lines from the header slice and construct the Header from them. -/
def parser_header (lines : List String) (hr : Nat × Nat) : Except PyErr Header :=
  headerOfLines (phGo lines (rangeList hr.1 hr.2) 0 "" [])

/-- Backward time/date loop of _parser (lines 248-260) over the descending
index list.  Returns the accumulated cpu seconds, elapsed seconds, the last
assigned date string, and a possible exception; partial accumulation before
the exception is preserved, matching the Python attribute mutations. -/
def timeGo (lines : List String) : List Nat → Nat → ℚ → ℚ → Option String → ℚ × ℚ × Option String × Option PyErr
  | [], _, cpu, el, d => (cpu, el, d, none)
  | i :: rest, lt, cpu, el, d =>
    let line := lines.getD i ""
    if hasPre line " Job cpu time:" then
      match time_compiler line with
      | .error e => (cpu, el, d, some e)
      | .ok c =>
        match pyGetN lines (i + 1) with
        | .error e => (cpu + c, el, d, some e)
        | .ok l2 =>
          match time_compiler l2 with
          | .error e => (cpu + c, el, d, some e)
          | .ok c2 =>
            if lt - 1 = 0 then (cpu + c, el + c2, d, none)
            else timeGo lines rest (lt - 1) (cpu + c) (el + c2) d
    else if matchErrNorm line then
      match dateOf lines with
      | .error e => (cpu, el, d, some e)
      | .ok ds => timeGo lines rest lt cpu el (some ds)
    else timeGo lines rest lt cpu el d

/-- Backward summary-slice scan of _parser (lines 263-270): remember 1 + the
last index ending in "@\n" (the scan keeps overwriting, so the lowest such
index above 1 wins), stop at the first " 1\1\" archive-entry line. -/
def sumGo (lines : List String) : List Nat → Nat → Nat → Nat × Nat
  | [], ss, se => (ss, se)
  | i :: rest, ss, se =>
    let line := lines.getD i ""
    if hasSuf line "@\n" then sumGo lines rest ss (i + 1)
    else if hasPre line " 1\\1\\" then (i, se)
    else sumGo lines rest ss se

/-- The summary index range _index["sum"] computed by _parser. -/
def sumIdxOf (lines : List String) : Nat × Nat :=
  sumGo lines (descIdx lines.length) 0 0

/-- The attribute assignments GaussianOut._parser performs, recorded as data:
values are present exactly when the corresponding Python assignment ran
before the method returned or raised. -/
structure ParserOut where
  hdrRange : Nat × Nat
  header : Option Header
  cpuAdd : ℚ
  elapAdd : ℚ
  dateSet : Option String
  sumIdx : Option (Nat × Nat)
  flagSet : Bool
deriving DecidableEq, Repr

/-- GaussianOut._parser (src/gaussian_io/gaussian.py lines 224-271), the part
after the finished assert: every value it computes is a function of the line
list and the current error_type, gathered here together with the first
exception raised (if any).  len_time is 2 only when the method mentions freq
case-insensitively AND error_type is truthy, else 1; the summary slice is
located only when error_type is literally False (none). -/
def parserCore (lines : List String) (errTy : Option String) : ParserOut × Option PyErr :=
  let hr := headerRangeOf lines
  match parser_header lines hr with
  | .error e => (⟨hr, none, 0, 0, none, none, false⟩, some e)
  | .ok hdr =>
    let lenTime := if searchFreqCI (String.join hdr.method) && pyTruthy errTy then 2 else 1
    match timeGo lines (descIdx lines.length) lenTime 0 0 none with
    | (cpu, el, d, some e) => (⟨hr, some hdr, cpu, el, d, none, false⟩, some e)
    | (cpu, el, d, none) =>
      let si := if errTy = none then some (sumIdxOf lines) else none
      (⟨hr, some hdr, cpu, el, d, si, true⟩, none)

/-- Write the assignments of a ParserOut into the object state, mirroring the
mutation order of _parser (assignments that never ran leave the attribute
unchanged; the parsed flag is only ever set to True). -/
def applyOut (st : GOState) (o : ParserOut) : GOState :=
  { st with
    idxHeader := o.hdrRange
    header := match o.header with | some h => some h | none => st.header
    cpuTime := st.cpuTime + o.cpuAdd
    elapsedTime := st.elapsedTime + o.elapAdd
    date := match o.dateSet with | some d => some d | none => st.date
    idxSum := match o.sumIdx with | some r => r | none => st.idxSum
    status := { st.status with parserFlag := st.status.parserFlag || o.flagSet } }

/-- GaussianOut._parser as a state transformer: the initial assert on the
finished flag, then the assignments of parserCore. -/
def parserMain (st : GOState) : GOState × Option PyErr :=
  if st.status.finished = false then
    (st, some (.assertE "Unfinished Gaussian out job."))
  else
    let oe := parserCore st.lines st.status.errorType
    (applyOut st oe.1, oe.2)

/-- GaussianOut.__init__ (src/gaussian_io/gaussian.py lines 124-157): under
10 lines or a non-terminal last line means finished=False and no parsing;
otherwise the 4th-from-last line decides between recording the g16 executable
name as error_type (IndexError when the pattern is absent) and running the
parser. -/
def mkGaussianOut (lines : List String) : GOState × Option PyErr :=
  let st := initGOState lines
  if lines.length < 10 then
    ({ st with status := { st.status with finished := false } }, none)
  else if matchTerminal (lastLineOf lines) = false then
    ({ st with status := { st.status with finished := false } }, none)
  else
    let errLine := pyGetWrap lines (-4)
    if hasPre errLine " Error termination" then
      match findG16 errLine with
      | none => (st, some .indexE)
      | some s => ({ st with status := { st.status with errorType := some s } }, none)
    else parserMain st

/-- The concatenation of stripped lines over the summary index range
(sum_line of _parser_sum). -/
def sumLineOf (lines : List String) (r : Nat × Nat) : String :=
  String.join ((rangeList r.1 r.2).map fun i => pyStrip (lines.getD i ""))

/-- GaussianOut._parser_sum (src/gaussian_io/gaussian.py lines 297-319):
re-run _parser when the parsed flag is set (the source tests the flag
directly), assert that error_type is falsy (message naming the error), split
the joined summary text on the double backslash delimiter, assert at least 5
fields (bare assert, empty message), then populate the summary dict.  All
dict writes happen after the asserts, so a failed parse leaves the summary
untouched. -/
def parser_sum (st : GOState) : GOState × Option PyErr :=
  let s1e := if st.status.parserFlag then parserMain st else (st, none)
  match s1e.2 with
  | some e => (s1e.1, some e)
  | none =>
    let st1 := s1e.1
    if pyTruthy st1.status.errorType then
      (st1, some (.assertE ("Error " ++ (st1.status.errorType.getD "") ++
        " found! Cannot get summary.")))
    else
      let sl := sumLineOf st1.lines st1.idxSum
      let comps := pySplitStr sl "\\\\"
      if comps.length < 5 then (st1, some (.assertE ""))
      else
        let s1 := dictInsert st1.summary "sys_info" (.str (comps.getD 0 ""))
        let coords := splitChar '\\' (comps.getD 3 "")
        let s2 := dictInsert s1 "coordinates" (.strs (coords.drop 1))
        let rest := splitChar '\\' (comps.getD 4 "")
        let s3 := rest.foldl
          (fun acc item =>
            if item.data.contains '=' then
              let com := splitChar '=' item
              dictInsert acc (com.getD 0 "") (.str (com.getD 1 ""))
            else acc) s2
        ({ st1 with summary := s3,
                    status := { st1.status with sumReader := true } }, none)

/-- The sum_params property (lines 183-187): run _parser_sum when needed and
return the summary keys. -/
def sum_params (st : GOState) : GOState × Except PyErr (List String) :=
  let s1e := if !st.status.sumReader && st.status.finished then parser_sum st else (st, none)
  match s1e.2 with
  | some e => (s1e.1, .error e)
  | none => (s1e.1, .ok (s1e.1.summary.map Prod.fst))

/-- The coord property (lines 189-193): run _parser_sum when needed, then
decode the stored coordinate tokens with the xyz dialect. -/
def coordProp (st : GOState) : GOState × Except PyErr (List Atom) :=
  let s1e := if !st.status.sumReader && st.status.finished then parser_sum st else (st, none)
  match s1e.2 with
  | some e => (s1e.1, .error e)
  | none =>
    match s1e.1.summary.lookup "coordinates" with
    | some (.strs ls) => (s1e.1, coordReader "xyz" ls)
    | some (.str s) => (s1e.1, coordReader "xyz" [s])
    | none => (s1e.1, .error .keyE)

/-- GaussianOut.get_params (lines 360-377): run _parser_sum when the summary
is not yet read (no finished guard here), then return the whole summary or
the requested key. -/
def get_params (st : GOState) (param : Option String) : GOState × Except PyErr (List (String × SumVal)) :=
  let s1e := if !st.status.sumReader then parser_sum st else (st, none)
  match s1e.2 with
  | some e => (s1e.1, .error e)
  | none =>
    match param with
    | none => (s1e.1, .ok s1e.1.summary)
    | some p =>
      match s1e.1.summary.lookup p with
      | some v => (s1e.1, .ok [(p, v)])
      | none => (s1e.1, .error .keyE)

/-- The four scan cursors of parser_optimisation (Python ints: force_end can
go negative through the cursor subtraction) plus the running SCF energy. -/
structure OptCur where
  cs : Int
  ce : Int
  fs : Int
  fe : Int
  energy : PyFloat
deriving DecidableEq, Repr

/-- Decode of the SCF energy: float of the 5th whitespace token of the
stripped " SCF Done:" line (lines 342-343). -/
def decodeScf (line : String) : Except PyErr PyFloat :=
  match (reSplitWs (pyStrip line)).get? 4 with
  | none => .error .indexE
  | some t =>
    match pyFloatOf t with
    | none => .error .valueE
    | some v => .ok v

/-- Cursor updates of one parser_optimisation iteration before the marker
check (lines 330-343): the coordinate if/elif pair, the independent forces
check, and the SCF energy update happen in this order on each line. -/
def optCurStep (lines : List String) (i : Nat) (line : String) (cur : OptCur) : OptCur :=
  let cur :=
    if matchSepSp line && containsSub (pyGetWrap lines ((i : Int) - 4)) " Input orientation:" then
      { cur with cs := (i : Int) + 1 }
    else if matchSepSp line && cur.cs ≠ 0 && cur.ce = 0 then
      { cur with ce := (i : Int) }
    else cur
  if matchSepSp line && containsSub (pyGetWrap lines ((i : Int) - 2)) " Forces " then
    { cur with fs := (i : Int) + 1, fe := (i : Int) + 1 + (cur.ce - cur.cs) }
  else cur

/-- Main loop of parser_optimisation (lines 329-358) over the ascending index
list: update cursors and energy per line, and on every line containing
"Converged?" decode the coordinate block, force block and the four following
convergence lines into one appended step, then reset the coordinate cursors.
Steps appended before an exception stay appended. -/
def optGo (lines : List String) : List Nat → OptCur → List OptStep → List OptStep × OptCur × Option PyErr
  | [], cur, steps => (steps, cur, none)
  | i :: rest, cur, steps =>
    let line := lines.getD i ""
    let cur1 := optCurStep lines i line cur
    match (if hasPre line " SCF Done:" then decodeScf line else .ok cur1.energy) with
    | .error e => (steps, cur1, some e)
    | .ok v =>
      let cur2 := { cur1 with energy := v }
      if containsSub line "Converged?" then
        let conv := pySliceI lines ((i : Int) + 1) ((i : Int) + 5)
        match coordReader "out" (pySliceI lines cur2.cs cur2.ce) with
        | .error e => (steps, cur2, some e)
        | .ok cd =>
          match forceParse (pySliceI lines cur2.fs cur2.fe) with
          | .error e => (steps, cur2, some e)
          | .ok fo =>
            match deciderParse conv [] with
            | .error e => (steps, cur2, some e)
            | .ok dc =>
              optGo lines rest { cur2 with cs := 0, ce := 0 }
                (steps ++ [⟨cd, fo, cur2.energy, dc⟩])
      else optGo lines rest cur2 steps

/-- GaussianOut.parser_optimisation (src/gaussian_io/gaussian.py lines
321-358): raise ValueError on an unfinished job, otherwise run the scan with
all cursors at zero and append the emitted steps to the stored list. -/
def parser_optimisation (st : GOState) : GOState × Option PyErr :=
  if st.status.finished = false then (st, some .valueE)
  else
    let r := optGo st.lines (List.range st.lines.length) ⟨0, 0, 0, 0, .finite 0⟩ st.optSteps
    ({ st with optSteps := r.1 }, r.2.2)

/-- GaussianOut.get_opt_step (lines 379-393): plain list indexing into the
stored steps (Python indexing, so negative indices wrap). -/
def get_opt_step (st : GOState) (step : Int) : Except PyErr OptStep :=
  let n : Int := st.optSteps.length
  let j : Int := if step < 0 then n + step else step
  if 0 ≤ j ∧ j < n then
    match st.optSteps.get? j.toNat with
    | some s => .ok s
    | none => .error .indexE
  else .error .indexE

/-- read_out of src/file_io.py (lines 16-57) after the file I/O: collect the
indices of " Initial command:" banner lines, append the document length, and
return one object for exactly two boundaries, else a list of objects built
over the consecutive boundary slices.  A constructor exception propagates. -/
def buildSegs (lines : List String) : List (Nat × Nat) → Except PyErr (List GOState)
  | [] => .ok []
  | (a, b) :: rest =>
    match mkGaussianOut (pySliceI lines (a : Int) (b : Int)) with
    | (st, none) =>
      match buildSegs lines rest with
      | .ok l => .ok (st :: l)
      | .error e => .error e
    | (_, some e) => .error e

/-- Consecutive pairs of the boundary list (the j, j+1 slices of read_out). -/
def consPairs : List Nat → List (Nat × Nat)
  | a :: b :: rest => (a, b) :: consPairs (b :: rest)
  | _ => []

/-- read_out of src/file_io.py with the file already read into lines. -/
def read_out_model (lines : List String) : Except PyErr (GOState ⊕ List GOState) :=
  let linkId := ((List.range lines.length).filter
    (fun i => hasPre (lines.getD i "") " Initial command:")) ++ [lines.length]
  if linkId.length = 2 then
    match mkGaussianOut lines with
    | (st, none) => .ok (.inl st)
    | (_, some e) => .error e
  else
    match buildSegs lines (consPairs linkId) with
    | .ok l => .ok (.inr l)
    | .error e => .error e

/-- Marker test of parser_optimisation: the line at index i contains
"Converged?". -/
def markerAt (lines : List String) (i : Nat) : Bool :=
  containsSub (lines.getD i "") "Converged?"

/-- The marker indices among an index list, in encounter order. -/
def markersIn (lines : List String) (is : List Nat) : List Nat :=
  is.filter (markerAt lines)

/-- The SCF value a line contributes: the decoded 5th whitespace token, with
a benign default in the error case (the loop itself raises there, so the
default is never observed under a successful parse). -/
def decode5D (line : String) : PyFloat :=
  match decodeScf line with
  | .ok v => v
  | .error _ => .finite 0

/-- Specification of the emitted SCF energies, following the spec wording:
walk the indices carrying the most recent " SCF Done:" value (initially 0)
and record it at every "Converged?" marker. -/
def scfTraceGo (lines : List String) : List Nat → PyFloat → List PyFloat
  | [], _ => []
  | i :: rest, e =>
    let line := lines.getD i ""
    let e2 := if hasPre line " SCF Done:" then decode5D line else e
    if containsSub line "Converged?" then e2 :: scfTraceGo lines rest e2
    else scfTraceGo lines rest e2

/-- The SCF energy trace of a whole document. -/
def scfTrace (lines : List String) : List PyFloat :=
  scfTraceGo lines (List.range lines.length) (.finite 0)

/-- A finished, error-free segment with three well-formed convergence blocks
and one SCF Done line before the second marker. -/
def c7wLines : List String :=
  ["a\n",
   " Converged?\n",
   " Maximum Force 0.1 0.2 YES\n",
   " RMS Force 0.1 0.2 YES\n",
   " Maximum Displacement 0.1 0.2 YES\n",
   " RMS Displacement 0.1 0.2 YES\n",
   " SCF Done: E(X) = -1.5 A.U. after 3 cycles\n",
   " Converged?\n",
   " Maximum Force 0.1 0.2 YES\n",
   " RMS Force 0.1 0.2 YES\n",
   " Maximum Displacement 0.1 0.2 YES\n",
   " RMS Displacement 0.1 0.2 YES\n",
   " Converged?\n",
   " Maximum Force 0.1 0.2 YES\n",
   " RMS Force 0.1 0.2 YES\n",
   " Maximum Displacement 0.1 0.2 YES\n",
   " RMS Displacement 0.1 0.2 YES\n",
   "a\n", "a\n",
   " Normal termination of Gaussian 16 at Mon Jan  1 00:00:00 2018.\n"]

/-- A finished, error-free segment with three "Converged?" markers followed by
garbage instead of convergence criteria. -/
def c7cLines : List String :=
  ["a\n", " Converged?\n", "a\n", " Converged?\n", "a\n", " Converged?\n",
   "a\n", "a\n", "a\n",
   " Normal termination of Gaussian 16 at Mon Jan  1 00:00:00 2018.\n"]

/-- A finished, error-free segment with one well-formed convergence block. -/
def c8wLines : List String :=
  ["a\n",
   " Converged?\n",
   " Maximum Force 0.1 0.2 YES\n",
   " RMS Force 0.1 0.2 YES\n",
   " Maximum Displacement 0.1 0.2 YES\n",
   " RMS Displacement 0.1 0.2 YES\n",
   "a\n", "a\n", "a\n", "a\n",
   " Normal termination of Gaussian 16 at Mon Jan  1 00:00:00 2018.\n"]

/-- The CPU-time line encoding (0 days, 1 hour, 2 minutes, 3.5 seconds). -/
def c9CpuLine : String :=
  " Job cpu time:       0 days  1 hours  2 minutes  3.5 seconds.\n"

/-- The matching elapsed-time line. -/
def c9ElapLine : String :=
  " Elapsed time:       0 days  0 hours  0 minutes  4.0 seconds.\n"

/-- A finished segment with one measurement pair at indices 2 and 3. -/
def c9wLines : List String :=
  ["a\n", "a\n", c9CpuLine, c9ElapLine,
   "a\n", "a\n", "a\n", "a\n", "a\n",
   " Normal termination of Gaussian 16 at Mon Jan  1 00:00:00 2018.\n"]

/-- A finished segment with its only measurement pair at indices 0 and 1,
below the stop index 2 of the backward scan. -/
def c9cLines : List String :=
  [c9CpuLine, c9ElapLine,
   "a\n", "a\n", "a\n", "a\n", "a\n", "a\n", "a\n",
   " Normal termination of Gaussian 16 at Mon Jan  1 00:00:00 2018.\n"]

/-- A 10-line finished error segment whose error line names executable l502. -/
def c1Lines : List String :=
  ["a\n", "a\n", "a\n", "a\n", "a\n", "a\n",
   " Error termination via Lnk1e in /opt/g16/l502.exe at Mon Jan  1 00:00:00 2018.\n",
   "a\n", "a\n",
   " File lengths (MBytes):  RWF=     50 Int=      0\n"]

/-- Ten lines with a non-terminal last line. -/
def c5Lines : List String :=
  ["a\n", "a\n", "a\n", "a\n", "a\n", "a\n", "a\n", "a\n", "a\n", "a\n"]

/-- An error line without the g16 executable pattern. -/
def c10aLines : List String :=
  ["b\n", "b\n", "b\n", "b\n", "b\n", "b\n",
   " Error termination request processed by link 9999.\n",
   "b\n", "b\n",
   " File lengths (MBytes):  RWF=     50 Int=      0\n"]

/-- An error line with the g16 executable pattern naming l301. -/
def c10bLines : List String :=
  ["b\n", "b\n", "b\n", "b\n", "b\n", "b\n",
   " Error termination via Lnk1e in /disk/g16/l301.exe at Mon Jan  1 00:00:00 2018.\n",
   "b\n", "b\n",
   " File lengths (MBytes):  RWF=     50 Int=      0\n"]

/-- A finished, error-free 10-line segment with no archive block at all, so
the summary slice is empty and splits into a single field. -/
def c3Lines : List String :=
  ["a\n", "a\n", "a\n", "a\n", "a\n", "a\n", "a\n", "a\n", "a\n",
   " Normal termination of Gaussian 16 at Mon Jan  1 00:00:00 2018.\n"]

theorem applyOut_lines (st : GOState) (o : ParserOut) : (applyOut st o).lines = st.lines := rfl

theorem applyOut_summary (st : GOState) (o : ParserOut) : (applyOut st o).summary = st.summary := rfl

theorem applyOut_errTy (st : GOState) (o : ParserOut) : (applyOut st o).status.errorType = st.status.errorType := rfl

theorem applyOut_fin (st : GOState) (o : ParserOut) : (applyOut st o).status.finished = st.status.finished := rfl

theorem applyOut_idxSum (st : GOState) (o : ParserOut) :
    (applyOut st o).idxSum = (match o.sumIdx with | some r => r | none => st.idxSum) := rfl

/-- A successfully constructed object whose parsed flag is set came through the
parser branch of the constructor: parserCore succeeded on the lines with no
error recorded, and the state is its application to the initial state. -/
theorem mk_parsed (lines : List String) (st : GOState)
    (hmk : mkGaussianOut lines = (st, none)) (hflag : st.status.parserFlag = true) :
    ∃ o : ParserOut, parserCore lines none = (o, none) ∧ st = applyOut (initGOState lines) o := by
  unfold mkGaussianOut at hmk
  by_cases h10 : lines.length < 10
  · rw [if_pos h10] at hmk
    injection hmk with h1 _
    rw [← h1] at hflag
    simp [initGOState] at hflag
  · rw [if_neg h10] at hmk
    by_cases hterm : matchTerminal (lastLineOf lines) = false
    · rw [if_pos hterm] at hmk
      injection hmk with h1 _
      rw [← h1] at hflag
      simp [initGOState] at hflag
    · rw [if_neg hterm] at hmk
      simp only at hmk
      by_cases herr : hasPre (pyGetWrap lines (-4)) " Error termination" = true
      · rw [if_pos herr] at hmk
        cases hf : findG16 (pyGetWrap lines (-4)) with
        | none =>
          rw [hf] at hmk
          injection hmk with _ h2
          cases h2
        | some s =>
          rw [hf] at hmk
          injection hmk with h1 _
          rw [← h1] at hflag
          simp [initGOState] at hflag
      · rw [if_neg herr] at hmk
        unfold parserMain at hmk
        rw [if_neg (by simp [initGOState])] at hmk
        have hety : (initGOState lines).status.errorType = none := rfl
        have hln : (initGOState lines).lines = lines := rfl
        rw [hln, hety] at hmk
        rcases hoe : parserCore lines none with ⟨o, e⟩
        rw [hoe] at hmk
        injection hmk with h1 h2
        have h1' : applyOut (initGOState lines) o = st := h1
        have h2' : e = none := h2
        exact ⟨o, by rw [h2'], h1'.symm⟩

/-- When parserCore succeeds with no error recorded, it located the summary
slice (error_type was none) and set the parsed flag. -/
theorem parserCore_none_ok (lines : List String) (o : ParserOut)
    (h : parserCore lines none = (o, none)) :
    o.sumIdx = some (sumIdxOf lines) ∧ o.flagSet = true ∧
    o.cpuAdd = (timeGo lines (descIdx lines.length) 1 0 0 none).1 ∧
    (timeGo lines (descIdx lines.length) 1 0 0 none).2.2.2 = none := by
  unfold parserCore at h
  simp only [] at h
  cases hph : parser_header lines (headerRangeOf lines) with
  | error e =>
    rw [hph] at h
    injection h with _ h2
    cases h2
  | ok hdr =>
    rw [hph] at h
    simp only [] at h
    have hlt : (if searchFreqCI (String.join hdr.method) && pyTruthy none then 2 else 1) = 1 := by
      simp [pyTruthy]
    rw [hlt] at h
    rcases htg : timeGo lines (descIdx lines.length) 1 0 0 none with ⟨cpu, el, d, err⟩
    rw [htg] at h
    cases err with
    | some e =>
      injection h with _ h2
      cases h2
    | none =>
      simp only at h
      injection h with h1 _
      rw [← h1]
      simp

/-- C3: for every segment constructed through the parser branch (summary slice
located), an archive block whose concatenated stripped text splits on the
double backslash delimiter into fewer than 5 fields makes _parser_sum raise
the field-count assertion, and the summary dict is still empty afterwards —
no partially populated summary is observable. -/
theorem claim_c3 (lines : List String)
    (hmk : (mkGaussianOut lines).2 = none)
    (hflag : (mkGaussianOut lines).1.status.parserFlag = true)
    (hlt : (pySplitStr (sumLineOf lines (sumIdxOf lines)) "\\\\").length < 5) :
    (parser_sum (mkGaussianOut lines).1).2 = some (.assertE "") ∧
    (parser_sum (mkGaussianOut lines).1).1.summary = [] := by
  have hpair : mkGaussianOut lines = ((mkGaussianOut lines).1, none) := by
    rw [← hmk]
  set st := (mkGaussianOut lines).1 with hstdef
  obtain ⟨o, hpc, hst⟩ := mk_parsed lines st hpair hflag
  obtain ⟨hsum, hfl, _⟩ := parserCore_none_ok lines o hpc
  have hlines : st.lines = lines := by rw [hst]; rfl
  have herr : st.status.errorType = none := by rw [hst]; rfl
  have hfin : st.status.finished = true := by rw [hst]; rfl
  have hsummary : st.summary = [] := by rw [hst]; rfl
  have hpm : parserMain st = (applyOut st o, none) := by
    unfold parserMain
    rw [if_neg (by rw [hfin]; simp), hlines, herr, hpc]
  have hidx : (applyOut st o).idxSum = sumIdxOf lines := by
    rw [applyOut_idxSum, hsum]
  have hl2 : (applyOut st o).lines = lines := by rw [applyOut_lines, hlines]
  have he2 : (applyOut st o).status.errorType = none := by rw [applyOut_errTy, herr]
  have hs2 : (applyOut st o).summary = [] := by rw [applyOut_summary, hsummary]
  have hps : parser_sum st = (applyOut st o, some (.assertE "")) := by
    unfold parser_sum
    rw [if_pos hflag, hpm]
    simp only []
    rw [he2]
    simp only [pyTruthy]
    rw [hl2, hidx, if_pos hlt]
    rfl
  rw [hps]
  exact ⟨rfl, hs2⟩

/-- C1 (amended): on the l502 error segment the summary accesses (coord,
sum_params, get_params) all fail with the precondition assertion whose
message names the recorded error kind, but optimization-step access performs
no error_kind check: parser_optimisation completes without raising (it only
rejects unfinished jobs), and get_opt_step merely indexes the step list
(IndexError that does not reference the error kind). -/
theorem claim_c1 :
    (mkGaussianOut c1Lines).2 = none ∧
    (mkGaussianOut c1Lines).1.status.errorType = some "l502" ∧
    (coordProp (mkGaussianOut c1Lines).1).2 =
      .error (.assertE ("Error " ++ "l502" ++ " found! Cannot get summary.")) ∧
    (sum_params (mkGaussianOut c1Lines).1).2 =
      .error (.assertE ("Error " ++ "l502" ++ " found! Cannot get summary.")) ∧
    (get_params (mkGaussianOut c1Lines).1 none).2 =
      .error (.assertE ("Error " ++ "l502" ++ " found! Cannot get summary.")) ∧
    (parser_optimisation (mkGaussianOut c1Lines).1).2 = none ∧
    get_opt_step (mkGaussianOut c1Lines).1 0 = .error .indexE :=
  ⟨rfl, rfl, rfl, rfl, rfl, rfl, rfl⟩

/-- C1 counterexample: the claim says every OptimizationStep access on an
error_kind segment fails with a precondition error referencing the error
kind; on this l502 segment parser_optimisation raises nothing at all. -/
theorem claim_c1_cex :
    (mkGaussianOut c1Lines).1.status.errorType = some "l502" ∧
    (parser_optimisation (mkGaussianOut c1Lines).1).2 = none :=
  ⟨rfl, rfl⟩

/-- C2: a document with zero " Initial command:" banner lines makes read_out
return the empty list — not a single GaussianOut spanning the document as the
claim (and the function's own docstring) states.  The boundary list starts
empty instead of containing 0, so zero banners give one boundary and the
multi-link branch with zero slices. -/
theorem claim_c2 : read_out_model ["hello\n"] = .ok (.inr []) := rfl

/-- C4: the synthetic header (directives mem=8GB, nprocshared=2, method
[PM7, opt], title "test job", charge 0, multiplicity 1) regenerated by
get_header and re-parsed yields a Header equal to the original in all five
components. -/
theorem claim_c4 : headerOfLines (get_header c4Header) = .ok c4Header := rfl

/-- C5: a segment shorter than 10 lines, or one of at least 10 lines whose
terminal line matches neither " File" nor " Normal", constructs without any
exception as finished=false, and no downstream parsing happens (parsed flag
unset, no header, empty summary). -/
theorem claim_c5 (lines : List String)
    (h : lines.length < 10 ∨ matchTerminal (lastLineOf lines) = false) :
    (mkGaussianOut lines).2 = none ∧
    (mkGaussianOut lines).1.status.finished = false ∧
    (mkGaussianOut lines).1.status.parserFlag = false ∧
    (mkGaussianOut lines).1.header = none ∧
    (mkGaussianOut lines).1.summary = [] := by
  by_cases h10 : lines.length < 10
  · simp [mkGaussianOut, h10, initGOState]
  · rcases h with h | hterm
    · exact absurd h h10
    · simp [mkGaussianOut, h10, hterm, initGOState]

theorem claim_c5_witness :
    ((mkGaussianOut ([] : List String)).2 = none ∧
     (mkGaussianOut ([] : List String)).1.status.finished = false ∧
     (mkGaussianOut ([] : List String)).1.status.parserFlag = false ∧
     (mkGaussianOut ([] : List String)).1.header = none ∧
     (mkGaussianOut ([] : List String)).1.summary = []) ∧
    ((mkGaussianOut c5Lines).2 = none ∧
     (mkGaussianOut c5Lines).1.status.finished = false ∧
     (mkGaussianOut c5Lines).1.status.parserFlag = false ∧
     (mkGaussianOut c5Lines).1.header = none ∧
     (mkGaussianOut c5Lines).1.summary = []) :=
  ⟨claim_c5 [] (Or.inl (by decide)), claim_c5 c5Lines (Or.inr (by decide))⟩

/-- C10: on a finished segment (10 or more lines, terminal match) whose
4th-from-last line starts with " Error termination", construction raises
IndexError exactly when the line has no g16/<name>.exe pattern (empty findall
indexed at [0]); with the pattern present construction succeeds and records
the captured name as error_type without running the parser. -/
theorem claim_c10 (lines : List String) (h10 : 10 ≤ lines.length)
    (ht : matchTerminal (lastLineOf lines) = true)
    (he : hasPre (pyGetWrap lines (-4)) " Error termination" = true) :
    (findG16 (pyGetWrap lines (-4)) = none →
      mkGaussianOut lines = (initGOState lines, some PyErr.indexE)) ∧
    (∀ s, findG16 (pyGetWrap lines (-4)) = some s →
      (mkGaussianOut lines).2 = none ∧
      (mkGaussianOut lines).1.status.errorType = some s ∧
      (mkGaussianOut lines).1.status.parserFlag = false) := by
  have h10' : ¬ lines.length < 10 := by omega
  have ht' : ¬ matchTerminal (lastLineOf lines) = false := by simp [ht]
  constructor
  · intro hf
    unfold mkGaussianOut
    rw [if_neg h10', if_neg ht']
    simp only []
    rw [if_pos he, hf]
  · intro s hf
    unfold mkGaussianOut
    rw [if_neg h10', if_neg ht']
    simp only []
    rw [if_pos he, hf]
    exact ⟨rfl, rfl, rfl⟩

theorem claim_c10_witness :
    mkGaussianOut c10aLines = (initGOState c10aLines, some PyErr.indexE) ∧
    ((mkGaussianOut c10bLines).2 = none ∧
     (mkGaussianOut c10bLines).1.status.errorType = some "l301" ∧
     (mkGaussianOut c10bLines).1.status.parserFlag = false) :=
  ⟨(claim_c10 c10aLines (by decide) (by decide) (by decide)).1 rfl,
   (claim_c10 c10bLines (by decide) (by decide) (by decide)).2 "l301" rfl⟩

theorem claim_c3_witness :
    (parser_sum (mkGaussianOut c3Lines).1).2 = some (.assertE "") ∧
    (parser_sum (mkGaussianOut c3Lines).1).1.summary = [] :=
  claim_c3 c3Lines rfl rfl (by decide)

/-- l.getD i "" is an element of l when i is in range. -/
theorem getD_mem (l : List String) : ∀ i, i < l.length → l.getD i "" ∈ l := by
  induction l with
  | nil => intro i h; simp at h
  | cons a t ih =>
    intro i h
    cases i with
    | zero => simp [List.getD]
    | succ j =>
      have hj : j < t.length := by simpa using h
      have hmem := ih j hj
      have hgd : (a :: t).getD (j + 1) "" = t.getD j "" := rfl
      rw [hgd]
      exact List.mem_cons_of_mem a hmem

/-- Helper for C6: over any index list whose lines are never the bare newline
and whose directive lines split into exactly key and value, the header loop
never reaches the charge/multiplicity parse and ends with every default
except the accumulated directives. -/
theorem read_header_go_noBlank (all : List String) :
    ∀ (is : List Nat) (sys : List (String × String)) (m : String),
    (∀ i ∈ is, all.getD i "" ≠ "\n") →
    (∀ i ∈ is, hasPre (all.getD i "") "%" = true →
      (splitCharL '=' (strSlice1m1 (all.getD i "")) []).length = 2) →
    ∃ sys', read_header_go all is sys m = .ok ⟨sys', [], "", 0, 1⟩ := by
  intro is
  induction is with
  | nil => intro sys m _ _; exact ⟨sys, rfl⟩
  | cons i rest ih =>
    intro sys m h1 h2
    have h1' : ∀ j ∈ rest, all.getD j "" ≠ "\n" :=
      fun j hj => h1 j (List.mem_cons_of_mem i hj)
    have h2' : ∀ j ∈ rest, hasPre (all.getD j "") "%" = true →
        (splitCharL '=' (strSlice1m1 (all.getD j "")) []).length = 2 :=
      fun j hj => h2 j (List.mem_cons_of_mem i hj)
    by_cases hp : hasPre (all.getD i "") "%" = true
    · have hlen := h2 i (List.mem_cons_self i rest) hp
      obtain ⟨k, v, hkv⟩ : ∃ k v, splitCharL '=' (strSlice1m1 (all.getD i "")) [] = [k, v] := by
        rcases hsp : splitCharL '=' (strSlice1m1 (all.getD i "")) [] with _ | ⟨k, t2⟩
        · rw [hsp] at hlen; simp at hlen
        · rcases t2 with _ | ⟨v, t3⟩
          · rw [hsp] at hlen; simp at hlen
          · rcases t3 with _ | ⟨w, t4⟩
            · exact ⟨k, v, rfl⟩
            · rw [hsp] at hlen; simp at hlen
      unfold read_header_go
      rw [if_pos hp, hkv]
      exact ih (dictInsert sys k v) m h1' h2'
    · by_cases hh : hasPre (all.getD i "") "#" = true
      · unfold read_header_go
        rw [if_neg hp, if_pos hh]
        exact ih sys (m ++ pyStrip (all.getD i "")) h1' h2'
      · have hnl : ¬ (all.getD i "" = "\n") := h1 i (List.mem_cons_self i rest)
        unfold read_header_go
        rw [if_neg hp, if_neg hh, if_neg hnl]
        exact ih sys m h1' h2'

/-- C6 (amended): when the blank line that triggers the charge/multiplicity
parse never occurs, header parsing does not fail — it silently returns a
Header whose method, title, charge and multiplicity keep the defaults
([], "", 0, 1), the directives being whatever the %-lines accumulated (a
%-line not splitting into exactly key=value still raises). -/
theorem claim_c6 (ls : List String)
    (h1 : ∀ l ∈ ls, l ≠ "\n")
    (h2 : ∀ l ∈ ls, hasPre l "%" = true →
      (splitCharL '=' (strSlice1m1 l) []).length = 2) :
    ∃ sys, headerOfLines ls = .ok ⟨sys, [], "", 0, 1⟩ := by
  apply read_header_go_noBlank
  · intro i hi
    have hlt : i < ls.length := List.mem_range.mp hi
    exact h1 _ (getD_mem ls i hlt)
  · intro i hi
    have hlt : i < ls.length := List.mem_range.mp hi
    exact h2 _ (getD_mem ls i hlt)

/-- C6 counterexample: a header sequence that never reaches the
charge/multiplicity line parses without any error into the all-default
Header, where the claim demands a failure. -/
theorem claim_c6_cex : headerOfLines ["hello\n"] = .ok ⟨[], [], "", 0, 1⟩ := rfl

theorem claim_c6_witness :
    ∃ sys, headerOfLines ["%mem=8GB\n"] = .ok ⟨sys, [], "", 0, 1⟩ :=
  claim_c6 ["%mem=8GB\n"] (by decide) (by decide)

theorem optCurStep_energy (lines : List String) (i : Nat) (line : String) (cur : OptCur) :
    (optCurStep lines i line cur).energy = cur.energy := by
  unfold optCurStep
  repeat' split
  all_goals rfl

theorem markersIn_cons (lines : List String) (i : Nat) (rest : List Nat) :
    markersIn lines (i :: rest) =
      (if markerAt lines i then i :: markersIn lines rest else markersIn lines rest) := by
  simp [markersIn, List.filter_cons]

/-- Step-count and energy invariant of the optimisation loop: a run that ends
without an exception appends one step per marker index, in encounter order,
and the appended energies follow the specification trace seeded with the
current running energy. -/
theorem optGo_trace (lines : List String) :
    ∀ (is : List Nat) (cur : OptCur) (steps steps' : List OptStep) (cur' : OptCur),
    optGo lines is cur steps = (steps', cur', none) →
    steps'.length = steps.length + (markersIn lines is).length ∧
    steps'.map OptStep.energy = steps.map OptStep.energy ++ scfTraceGo lines is cur.energy := by
  intro is
  induction is with
  | nil =>
    intro cur steps steps' cur' h
    have h1 : steps = steps' := congrArg Prod.fst h
    rw [← h1]
    exact ⟨by simp [markersIn], by simp [scfTraceGo]⟩
  | cons i rest ih =>
    intro cur steps steps' cur' h
    simp only [optGo] at h
    cases hE : (if hasPre (lines.getD i "") " SCF Done:" then decodeScf (lines.getD i "")
        else Except.ok (optCurStep lines i (lines.getD i "") cur).energy) with
    | error e =>
      rw [hE] at h
      exact absurd (congrArg (fun p => p.2.2) h) (by simp)
    | ok v =>
      rw [hE] at h
      simp only [] at h
      have hv : v = (if hasPre (lines.getD i "") " SCF Done:" then decode5D (lines.getD i "")
          else cur.energy) := by
        by_cases hscf : hasPre (lines.getD i "") " SCF Done:" = true
        · rw [if_pos hscf] at hE ⊢
          unfold decode5D
          rw [hE]
        · rw [if_neg hscf] at hE ⊢
          injection hE with h'
          rw [← h', optCurStep_energy]
      by_cases hm : containsSub (lines.getD i "") "Converged?" = true
      · rw [if_pos hm] at h
        cases hcd : coordReader "out" (pySliceI lines (optCurStep lines i (lines.getD i "") cur).cs
            (optCurStep lines i (lines.getD i "") cur).ce) with
        | error e =>
          rw [hcd] at h
          exact absurd (congrArg (fun p => p.2.2) h) (by simp)
        | ok cd =>
          rw [hcd] at h
          cases hfo : forceParse (pySliceI lines (optCurStep lines i (lines.getD i "") cur).fs
              (optCurStep lines i (lines.getD i "") cur).fe) with
          | error e =>
            rw [hfo] at h
            exact absurd (congrArg (fun p => p.2.2) h) (by simp)
          | ok fo =>
            rw [hfo] at h
            cases hdc : deciderParse (pySliceI lines ((i : Int) + 1) ((i : Int) + 5)) [] with
            | error e =>
              rw [hdc] at h
              exact absurd (congrArg (fun p => p.2.2) h) (by simp)
            | ok dc =>
              rw [hdc] at h
              obtain ⟨ha, hb⟩ := ih _ _ _ _ h
              constructor
              · rw [ha, markersIn_cons, if_pos (by simpa [markerAt] using hm)]
                simp
                omega
              · rw [hb]
                have htr : scfTraceGo lines (i :: rest) cur.energy = v :: scfTraceGo lines rest v := by
                  simp only [scfTraceGo]
                  rw [if_pos hm, ← hv]
                rw [htr]
                simp
      · rw [if_neg hm] at h
        obtain ⟨ha, hb⟩ := ih _ _ _ _ h
        constructor
        · rw [ha, markersIn_cons, if_neg (by simpa [markerAt] using hm)]
        · rw [hb]
          have htr : scfTraceGo lines (i :: rest) cur.energy = scfTraceGo lines rest v := by
            simp only [scfTraceGo]
            rw [if_neg hm, ← hv]
          rw [htr]

/-- The optimisation loop appends: running it with a non-empty accumulator
produces exactly the accumulator followed by what a fresh run produces, with
the same cursor and error outcome. -/
theorem optGo_append (lines : List String) :
    ∀ (is : List Nat) (cur : OptCur) (steps : List OptStep),
    (optGo lines is cur steps).1 = steps ++ (optGo lines is cur []).1 ∧
    (optGo lines is cur steps).2 = (optGo lines is cur []).2 := by
  intro is
  induction is with
  | nil => intro cur steps; exact ⟨by simp [optGo], rfl⟩
  | cons i rest ih =>
    intro cur steps
    simp only [optGo]
    cases hE : (if hasPre (lines.getD i "") " SCF Done:" then decodeScf (lines.getD i "")
        else Except.ok (optCurStep lines i (lines.getD i "") cur).energy) with
    | error e => simp
    | ok v =>
      simp only []
      by_cases hm : containsSub (lines.getD i "") "Converged?" = true
      · rw [if_pos hm, if_pos hm]
        cases hcd : coordReader "out" (pySliceI lines (optCurStep lines i (lines.getD i "") cur).cs
            (optCurStep lines i (lines.getD i "") cur).ce) with
        | error e => simp
        | ok cd =>
          cases hfo : forceParse (pySliceI lines (optCurStep lines i (lines.getD i "") cur).fs
              (optCurStep lines i (lines.getD i "") cur).fe) with
          | error e => simp
          | ok fo =>
            cases hdc : deciderParse (pySliceI lines ((i : Int) + 1) ((i : Int) + 5)) [] with
            | error e => simp
            | ok dc =>
              constructor
              · rw [(ih _ _).1]
                conv_rhs => rw [(ih _ _).1]
                simp
              · rw [(ih _ _).2]
                conv_rhs => rw [(ih _ _).2]
      · rw [if_neg hm, if_neg hm]
        exact ih _ _

/-- C7 (amended): on a finished segment (10 or more lines) with a fresh step
list and exactly 3 lines containing the "Converged?" marker, a
parser_optimisation run that completes without a decoding exception produces
exactly 3 OptimizationStep entries, in encounter order, whose scf_energy
values are exactly the specification trace: the decoded 5th whitespace token
of the most recent " SCF Done:" line at or before each marker (0 when none
precedes). -/
theorem claim_c7 (st : GOState) (_hn : 10 ≤ st.lines.length)
    (hf : st.status.finished = true) (h0 : st.optSteps = [])
    (hok : (parser_optimisation st).2 = none)
    (h3 : (markersIn st.lines (List.range st.lines.length)).length = 3) :
    (parser_optimisation st).1.optSteps.length = 3 ∧
    (parser_optimisation st).1.optSteps.map OptStep.energy = scfTrace st.lines := by
  unfold parser_optimisation at hok ⊢
  rw [if_neg (by simp [hf])] at hok ⊢
  simp only [] at hok ⊢
  rcases hgo : optGo st.lines (List.range st.lines.length) ⟨0, 0, 0, 0, .finite 0⟩ st.optSteps
    with ⟨s2, c2, e2⟩
  rw [hgo] at hok
  have hok2 : e2 = none := hok
  rw [h0, hok2] at hgo
  obtain ⟨ha, hb⟩ := optGo_trace st.lines _ _ _ _ _ hgo
  refine ⟨?_, ?_⟩
  · show s2.length = 3
    rw [ha]
    simpa using h3
  · show s2.map OptStep.energy = scfTrace st.lines
    rw [hb]
    simp [scfTrace]

theorem claim_c7_witness :
    (parser_optimisation (mkGaussianOut c7wLines).1).1.optSteps.length = 3 ∧
    (parser_optimisation (mkGaussianOut c7wLines).1).1.optSteps.map OptStep.energy
      = scfTrace (mkGaussianOut c7wLines).1.lines :=
  claim_c7 (mkGaussianOut c7wLines).1 (by decide) rfl rfl rfl (by decide)

/-- C7 counterexample: a finished, error-free segment with exactly 3
"Converged?" markers on which the optimization-step parse raises IndexError
(garbage convergence block) and emits no steps at all, against the claim's
"produces exactly 3 entries". -/
theorem claim_c7_cex :
    (mkGaussianOut c7cLines).2 = none ∧
    (mkGaussianOut c7cLines).1.status.errorType = none ∧
    (markersIn c7cLines (List.range c7cLines.length)).length = 3 ∧
    (parser_optimisation (mkGaussianOut c7cLines).1).2 = some .indexE ∧
    (parser_optimisation (mkGaussianOut c7cLines).1).1.optSteps.length = 0 :=
  ⟨rfl, rfl, by decide, rfl, rfl⟩

/-- C8 (amended): parser_optimisation appends to the stored step list instead
of recomputing it: starting from a fresh segment state, a second invocation
succeeds and leaves the step list equal to the single-invocation steps
followed by themselves (doubling it), rather than being idempotent. -/
theorem claim_c8 (st : GOState) (_hn : 10 ≤ st.lines.length)
    (hf : st.status.finished = true) (h0 : st.optSteps = [])
    (hok : (parser_optimisation st).2 = none) :
    (parser_optimisation (parser_optimisation st).1).2 = none ∧
    (parser_optimisation (parser_optimisation st).1).1.optSteps
      = (parser_optimisation st).1.optSteps ++ (parser_optimisation st).1.optSteps := by
  unfold parser_optimisation at hok ⊢
  rw [if_neg (by simp [hf])] at hok ⊢
  rw [if_neg (by simp [hf])]
  simp only [] at hok ⊢
  rw [h0] at hok ⊢
  obtain ⟨hap, hae⟩ := optGo_append st.lines (List.range st.lines.length)
    ⟨0, 0, 0, 0, .finite 0⟩ (optGo st.lines (List.range st.lines.length)
      ⟨0, 0, 0, 0, .finite 0⟩ []).1
  constructor
  · rw [hae]
    exact hok
  · rw [hap]

theorem claim_c8_witness :
    (parser_optimisation (parser_optimisation (mkGaussianOut c8wLines).1).1).2 = none ∧
    (parser_optimisation (parser_optimisation (mkGaussianOut c8wLines).1).1).1.optSteps
      = (parser_optimisation (mkGaussianOut c8wLines).1).1.optSteps
        ++ (parser_optimisation (mkGaussianOut c8wLines).1).1.optSteps :=
  claim_c8 (mkGaussianOut c8wLines).1 (by decide) rfl rfl rfl

/-- C8 counterexample: on a finished segment with one convergence block, the
first invocation stores 1 step and a second invocation leaves 2, so the
observable step collection is not a function of the segment alone. -/
theorem claim_c8_cex :
    (parser_optimisation (mkGaussianOut c8wLines).1).1.optSteps.length = 1 ∧
    (parser_optimisation (parser_optimisation (mkGaussianOut c8wLines).1).1).1.optSteps.length = 2 :=
  ⟨rfl, rfl⟩

theorem tcCpu : time_compiler c9CpuLine = Except.ok (7447 / 2) := by
  have hfd : findAllDec c9CpuLine = ["0", "1", "2", "3.5"] := by decide
  unfold time_compiler
  rw [hfd]
  simp only [List.map]
  congr 1
  rw [show decToRat "0" = ((0 : ℕ) : ℚ) + ((0 : ℕ) : ℚ) / (10 : ℚ) ^ (0 : ℕ) from rfl,
      show decToRat "1" = ((1 : ℕ) : ℚ) + ((0 : ℕ) : ℚ) / (10 : ℚ) ^ (0 : ℕ) from rfl,
      show decToRat "2" = ((2 : ℕ) : ℚ) + ((0 : ℕ) : ℚ) / (10 : ℚ) ^ (0 : ℕ) from rfl,
      show decToRat "3.5" = ((3 : ℕ) : ℚ) + ((5 : ℕ) : ℚ) / (10 : ℚ) ^ (1 : ℕ) from rfl]
  norm_num

theorem tcElap : time_compiler c9ElapLine = Except.ok 4 := by
  have hfd : findAllDec c9ElapLine = ["0", "0", "0", "4.0"] := by decide
  unfold time_compiler
  rw [hfd]
  simp only [List.map]
  congr 1
  rw [show decToRat "0" = ((0 : ℕ) : ℚ) + ((0 : ℕ) : ℚ) / (10 : ℚ) ^ (0 : ℕ) from rfl,
      show decToRat "4.0" = ((4 : ℕ) : ℚ) + ((0 : ℕ) : ℚ) / (10 : ℚ) ^ (1 : ℕ) from rfl]
  norm_num

/-- Backward scan lemma for C9: over any descending index list whose only
" Job cpu time:" index is p (carrying the concrete (0, 1, 2, 3.5) line with
its elapsed companion), a scan with one expected pair that ends without an
exception accumulates exactly 1 hour 2 minutes 3.5 seconds = 3723.5 s. -/
theorem timeGo_single (lines : List String) (p : Nat)
    (hp : lines.get? p = some c9CpuLine) (hp1 : lines.get? (p + 1) = some c9ElapLine) :
    ∀ (is : List Nat) (cpu el : ℚ) (d : Option String),
    (∀ j ∈ is, hasPre (lines.getD j "") " Job cpu time:" = true → j = p) →
    p ∈ is →
    (timeGo lines is 1 cpu el d).2.2.2 = none →
    (timeGo lines is 1 cpu el d).1 = cpu + 7447 / 2 := by
  have hgdp : lines.getD p "" = c9CpuLine := by
    unfold List.getD
    rw [hp]
    rfl
  intro is
  induction is with
  | nil =>
    intro cpu el d _ hmem _
    cases hmem
  | cons i rest ih =>
    intro cpu el d huniq hmem hok
    by_cases hc : hasPre (lines.getD i "") " Job cpu time:" = true
    · have hip : i = p := huniq i (List.mem_cons_self i rest) hc
      subst hip
      rw [timeGo, hgdp,
        show pyGetN lines (i + 1) = Except.ok c9ElapLine from by unfold pyGetN; rw [hp1]]
      rw [if_pos (show hasPre c9CpuLine " Job cpu time:" = true by decide)]
      rw [tcCpu]
      simp only []
      rw [tcElap]
      rfl
    · have hpr : p ∈ rest := by
        cases List.mem_cons.mp hmem with
        | inl hip =>
          rw [hip] at hgdp
          rw [hgdp] at hc
          exact absurd (by decide) hc
        | inr h => exact h
      have huniq' : ∀ j ∈ rest, hasPre (lines.getD j "") " Job cpu time:" = true → j = p :=
        fun j hj => huniq j (List.mem_cons_of_mem i hj)
      rw [timeGo] at hok ⊢
      rw [if_neg hc] at hok ⊢
      by_cases hd : matchErrNorm (lines.getD i "") = true
      · rw [if_pos hd] at hok ⊢
        cases hdo : dateOf lines with
        | error e =>
          rw [hdo] at hok
          cases hok
        | ok ds =>
          rw [hdo] at hok
          exact ih cpu el (some ds) huniq' hpr hok
      · rw [if_neg hd] at hok ⊢
        exact ih cpu el d huniq' hpr hok

/-- C9 (amended): on a segment that constructs successfully through the
parser branch, whose only " Job cpu time:" line sits at an index p with
2 <= p (the backward scan never visits indices 0 and 1) and encodes
(0 days, 1 hour, 2 minutes, 3.5 seconds) followed by its elapsed-time line,
the accumulated cpu_time equals exactly 3723.5 seconds. -/
theorem claim_c9 (lines : List String) (p : Nat)
    (hmk : (mkGaussianOut lines).2 = none)
    (hflag : (mkGaussianOut lines).1.status.parserFlag = true)
    (hp2 : 2 ≤ p)
    (hcpu : lines.get? p = some c9CpuLine)
    (hel : lines.get? (p + 1) = some c9ElapLine)
    (huniq : ∀ j, j < lines.length → hasPre (lines.getD j "") " Job cpu time:" = true → j = p) :
    (mkGaussianOut lines).1.cpuTime = 7447 / 2 := by
  have hpair : mkGaussianOut lines = ((mkGaussianOut lines).1, none) := by
    rw [← hmk]
  obtain ⟨o, hpc, hst⟩ := mk_parsed lines _ hpair hflag
  obtain ⟨_, _, hcadd, herr⟩ := parserCore_none_ok lines o hpc
  have hplen : p < lines.length := by
    obtain ⟨hlt, -⟩ := List.get?_eq_some.mp hcpu
    exact hlt
  have hpmem : p ∈ descIdx lines.length := by
    unfold descIdx
    rw [List.mem_reverse, List.mem_range'_1]
    omega
  have huniq' : ∀ j ∈ descIdx lines.length,
      hasPre (lines.getD j "") " Job cpu time:" = true → j = p := by
    intro j hj
    have hjlen : j < lines.length := by
      unfold descIdx at hj
      rw [List.mem_reverse, List.mem_range'_1] at hj
      omega
    exact huniq j hjlen
  have h1 := timeGo_single lines p hcpu hel (descIdx lines.length) 0 0 none huniq' hpmem herr
  rw [hst]
  show (initGOState lines).cpuTime + o.cpuAdd = 7447 / 2
  rw [hcadd, h1]
  show (0 : ℚ) + (0 + 7447 / 2) = 7447 / 2
  norm_num

theorem claim_c9_witness : (mkGaussianOut c9wLines).1.cpuTime = 7447 / 2 :=
  claim_c9 c9wLines 2 rfl rfl (by decide) rfl rfl (by decide)

/-- C9 counterexample: a segment whose single measurement pair sits at
indices 0 and 1 is never visited by the backward scan range(n-1, 1, -1), so
the accumulated cpu_time stays 0 instead of the encoded 3723.5 seconds. -/
theorem claim_c9_cex :
    (mkGaussianOut c9cLines).2 = none ∧
    c9cLines.get? 0 = some c9CpuLine ∧
    c9cLines.get? 1 = some c9ElapLine ∧
    (∀ j, j < c9cLines.length →
      hasPre (c9cLines.getD j "") " Job cpu time:" = true → j = 0) ∧
    (mkGaussianOut c9cLines).1.cpuTime ≠ 7447 / 2 := by
  refine ⟨rfl, rfl, rfl, by decide, ?_⟩
  have h0 : (mkGaussianOut c9cLines).1.cpuTime = 0 + 0 := rfl
  rw [h0]
  norm_num
